import Mathlib

set_option maxRecDepth 16384

/-!
Verification of the `ai_course_generator` repository against its
natural-language specification.

The development shallowly embeds the TypeScript sources:
* `src/services/ai-service.ts` — the response-recovery parser and the
  model-fallback loop of `AIService.generateCourseSyllabus`;
* `src/services/course-service.ts` — the persistence operations;
* `src/lib/ai-client.ts` — the AI client and model listing;
* `src/types/index.ts` and the `generateCourse` server action — input
  validation and response shaping.

Strings are modelled as `List Char`.  JavaScript regular-expression
replacements are modelled as explicit left-to-right scanners that
reproduce the exact matching semantics (leftmost match, greedy/lazy
quantifier behaviour, continuation after the end of each match) of the
concrete patterns appearing in the source.  Recursive scanners take a
fuel argument; every recursive call consumes at least one character of
the input, so `length + 1` fuel always suffices and the functions
compute by kernel reduction.
-/

namespace CourseGen

/-! ### Character classes

`isJsWs` models the JavaScript `\s` class (and `String.prototype.trim`)
restricted to the ASCII whitespace characters that can occur in the
inputs considered here.  `isJsonWs` is the whitespace class of
`JSON.parse` (RFC 8259): space, tab, line feed, carriage return only. -/

def isJsWs (c : Char) : Bool :=
  c = ' ' || c = '\t' || c = '\n' || c = '\r' || c = '\x0b' || c = '\x0c'

def isJsonWs (c : Char) : Bool :=
  c = ' ' || c = '\t' || c = '\n' || c = '\r'

def isDigitCh (c : Char) : Bool :=
  '0' ≤ c && c ≤ '9'

/-- `String.prototype.trim`: drop leading and trailing whitespace. -/
def jsTrim (l : List Char) : List Char :=
  ((l.dropWhile isJsWs).reverse.dropWhile isJsWs).reverse

/-! ### Markdown fence stripping (ai-service.ts lines 140-144)

```
if (jsonContent.startsWith("```json")) {
    jsonContent = jsonContent.replace(/^```json\s*/i, "").replace(/\s*```$/i, "");
} else if (jsonContent.startsWith("```")) {
    jsonContent = jsonContent.replace(/^```\s*/, "").replace(/\s*```$/, "");
}
```
-/

def fenceJson : List Char := '`' :: '`' :: '`' :: 'j' :: 's' :: 'o' :: 'n' :: []

def fenceBare : List Char := '`' :: '`' :: '`' :: []

/-- `replace(/\s*```$/ , "")`: if the string ends with three backticks,
remove them together with the immediately preceding whitespace run. -/
def stripTrailingFence (l : List Char) : List Char :=
  if fenceBare.isPrefixOf l.reverse then
    ((l.reverse.drop 3).dropWhile isJsWs).reverse
  else l

def stripFences (l : List Char) : List Char :=
  if fenceJson.isPrefixOf l then
    stripTrailingFence ((l.drop 7).dropWhile isJsWs)
  else if fenceBare.isPrefixOf l then
    stripTrailingFence ((l.drop 3).dropWhile isJsWs)
  else l

/-! ### Object extraction (ai-service.ts lines 147-150)

`jsonContent.match(/\{[\s\S]*\})/` : the first match starts at the first
`{` that has some `}` after it and extends greedily to the last `}` of
the string. -/

def extractObject (l : List Char) : Option (List Char) :=
  let t := l.dropWhile (fun c => !(c = '{'))
  let r := t.reverse.dropWhile (fun c => !(c = '}'))
  if t.isEmpty || r.isEmpty then none else some r.reverse

def extractObjectOr (l : List Char) : List Char :=
  match extractObject l with
  | some m => m
  | none => l

/-! ### Tier-2 boundary re-location (ai-service.ts lines 173-178)

`indexOf("{")` / `lastIndexOf("}")`; the substring is taken only when
both exist and the last `}` is strictly after the first `{`. -/

def braceSubstring (l : List Char) : List Char :=
  let t := l.dropWhile (fun c => !(c = '{'))
  let r := t.reverse.dropWhile (fun c => !(c = '}'))
  if t.isEmpty || r.isEmpty then l else r.reverse

/-! ### Comma-repair scanners

Each scanner reproduces one `String.replace(/…/g, …)` from the source.
All of them scan left to right, and after rewriting a match continue
immediately after its last character, exactly as the JavaScript global
replace does. -/

/-- Split a whitespace run at its last newline: `w = w₁ ++ '\n' :: w₂`
with `w₂` newline-free.  Returns `(w₁, w₂)`.  (Backtracking of a greedy
`\s*` before a `(\n\s*…)` group lands the group on the last newline.) -/
def splitLastNl (w : List Char) : List Char × List Char :=
  let w2 := (w.reverse.takeWhile (fun c => !(c = '\n'))).reverse
  (w.take (w.length - w2.length - 1), w2)

def hasNl (w : List Char) : Bool := w.any (fun c => c = '\n')

/-- `replace(/,(\s*[}\]])/g, "$1")` (lines 154 and 189): drop a comma
that is followed, across whitespace, by a closing brace or bracket. -/
def removeTrailingCommas : Nat → List Char → List Char
  | 0, l => l
  | fuel + 1, l =>
    match l with
    | [] => []
    | c :: rest =>
      if c = ',' then
        let w := rest.takeWhile isJsWs
        match rest.dropWhile isJsWs with
        | b :: rest' =>
          if b = '}' || b = ']' then
            w ++ b :: removeTrailingCommas fuel rest'
          else c :: removeTrailingCommas fuel rest
        | [] => c :: removeTrailingCommas fuel rest
      else c :: removeTrailingCommas fuel rest

def remTrailingCommas (l : List Char) : List Char :=
  removeTrailingCommas (l.length + 1) l

/-- `replace(/(X\s*)(\n\s*Y)/g, "$1,$2")` for single characters `X`,
`Y`: between an `X` and a later `Y` separated only by whitespace that
contains a newline, insert a comma before the last newline.  Used for
the five tier-1 comma-insertion patterns (lines 158-162). -/
def insertCommaAdj (isX isY : Char → Bool) : Nat → List Char → List Char
  | 0, l => l
  | fuel + 1, l =>
    match l with
    | [] => []
    | c :: rest =>
      if isX c then
        let w := rest.takeWhile isJsWs
        match rest.dropWhile isJsWs with
        | y :: rest' =>
          if isY y && hasNl w then
            let (w1, w2) := splitLastNl w
            c :: (w1 ++ ',' :: '\n' :: w2 ++ y :: insertCommaAdj isX isY fuel rest')
          else c :: insertCommaAdj isX isY fuel rest
        | [] => c :: insertCommaAdj isX isY fuel rest
      else c :: insertCommaAdj isX isY fuel rest

def fixAdj (isX isY : Char → Bool) (l : List Char) : List Char :=
  insertCommaAdj isX isY (l.length + 1) l

/-- Line 158: missing comma between string properties. -/
def fixStrStr (l : List Char) : List Char :=
  fixAdj (fun c => c = '"') (fun c => c = '"') l

/-- Line 159: missing comma between objects. -/
def fixObjObj (l : List Char) : List Char :=
  fixAdj (fun c => c = '}') (fun c => c = '{') l

/-- Line 160: missing comma between arrays. -/
def fixArrArr (l : List Char) : List Char :=
  fixAdj (fun c => c = ']') (fun c => c = '[') l

/-- Line 161: missing comma between object and string. -/
def fixObjStr (l : List Char) : List Char :=
  fixAdj (fun c => c = '}') (fun c => c = '"') l

/-- Line 162: missing comma between array and string. -/
def fixArrStr (l : List Char) : List Char :=
  fixAdj (fun c => c = ']') (fun c => c = '"') l

/-- Line 182: `replace(/([}\]"])\s*\n\s*(["{])/g, "$1,$2")` — the
whitespace (which must contain a newline) is replaced by a single
comma. -/
def aggrFix1Go : Nat → List Char → List Char
  | 0, l => l
  | fuel + 1, l =>
    match l with
    | [] => []
    | c :: rest =>
      if c = '}' || c = ']' || c = '"' then
        let w := rest.takeWhile isJsWs
        match rest.dropWhile isJsWs with
        | y :: rest' =>
          if (y = '"' || y = '{') && hasNl w then
            c :: ',' :: y :: aggrFix1Go fuel rest'
          else c :: aggrFix1Go fuel rest
        | [] => c :: aggrFix1Go fuel rest
      else c :: aggrFix1Go fuel rest

def aggrFix1 (l : List Char) : List Char := aggrFix1Go (l.length + 1) l

/-- Line 184: `replace(/([^,}\]])\s*(\n\s*[}\]])/g, "$1$2")` — delete
the whitespace before the last newline preceding a closing brace or
bracket. -/
def aggrFix2Go : Nat → List Char → List Char
  | 0, l => l
  | fuel + 1, l =>
    match l with
    | [] => []
    | c :: rest =>
      if !(c = ',' || c = '}' || c = ']') then
        let w := rest.takeWhile isJsWs
        match rest.dropWhile isJsWs with
        | y :: rest' =>
          if (y = '}' || y = ']') && hasNl w then
            let (_, w2) := splitLastNl w
            c :: '\n' :: (w2 ++ y :: aggrFix2Go fuel rest')
          else c :: aggrFix2Go fuel rest
        | [] => c :: aggrFix2Go fuel rest
      else c :: aggrFix2Go fuel rest

def aggrFix2 (l : List Char) : List Char := aggrFix2Go (l.length + 1) l

/-- Line 186: `replace(/([}\]"])\s*(\n\s*)([{"\d-])/g, "$1,$3")` — drop
the newline-containing whitespace, inserting a comma. -/
def aggrFix3Go : Nat → List Char → List Char
  | 0, l => l
  | fuel + 1, l =>
    match l with
    | [] => []
    | c :: rest =>
      if c = '}' || c = ']' || c = '"' then
        let w := rest.takeWhile isJsWs
        match rest.dropWhile isJsWs with
        | y :: rest' =>
          if (y = '{' || y = '"' || y = '-' || isDigitCh y) && hasNl w then
            c :: ',' :: y :: aggrFix3Go fuel rest'
          else c :: aggrFix3Go fuel rest
        | [] => c :: aggrFix3Go fuel rest
      else c :: aggrFix3Go fuel rest

def aggrFix3 (l : List Char) : List Char := aggrFix3Go (l.length + 1) l

/-! ### JSON values and `JSON.parse`

Numbers are kept as their source lexeme (the claims never compare
numbers produced from distinct lexemes).  Object fields keep insertion
order; a duplicate key overwrites the value at the first occurrence,
as in JavaScript. -/

inductive Json where
  | null : Json
  | bool (b : Bool) : Json
  | num (lex : List Char) : Json
  | str (s : List Char) : Json
  | arr (xs : List Json) : Json
  | obj (fs : List (List Char × Json)) : Json

/-- Set a field, overwriting in place if the key already exists,
appending otherwise (JavaScript object-key insertion order). -/
def setField (k : List Char) (v : Json) : List (List Char × Json) → List (List Char × Json)
  | [] => [(k, v)]
  | (k', v') :: fs => if k' = k then (k, v) :: fs else (k', v') :: setField k v fs

def lookupField (k : List Char) : List (List Char × Json) → Option Json
  | [] => none
  | (k', v') :: fs => if k' = k then some v' else lookupField k fs

/-- JavaScript property read `v[k]` for the keys used by the service;
`none` models `undefined`.  (Property reads on `null` throw; that case
is handled at the use sites.) -/
def jsGet (v : Json) (k : List Char) : Option Json :=
  match v with
  | .obj fs => lookupField k fs
  | _ => none

def skipJsonWs (l : List Char) : List Char := l.dropWhile isJsonWs

/-- String body parser (after the opening quote).  Returns the decoded
characters and the remainder after the closing quote.  Escapes follow
`JSON.parse`; a `\uXXXX` escape is decoded with `Char.ofNat` (lone
surrogates, which Lean's `Char` cannot represent, do not occur in the
inputs considered).  Unescaped control characters are rejected. -/
def hexVal (c : Char) : Option Nat :=
  if '0' ≤ c && c ≤ '9' then some (c.toNat - 48)
  else if 'a' ≤ c && c ≤ 'f' then some (c.toNat - 87)
  else if 'A' ≤ c && c ≤ 'F' then some (c.toNat - 55)
  else none

def escChar (e : Char) : Option Char :=
  if e = '"' then some '"'
  else if e = '\\' then some '\\'
  else if e = '/' then some '/'
  else if e = 'b' then some '\x08'
  else if e = 'f' then some '\x0c'
  else if e = 'n' then some '\n'
  else if e = 'r' then some '\r'
  else if e = 't' then some '\t'
  else none

def parseStringGo : Nat → List Char → Option (List Char × List Char)
  | 0, _ => none
  | _, [] => none
  | fuel + 1, c :: rest =>
    let cont (ch : Char) (r : List Char) : Option (List Char × List Char) :=
      match parseStringGo fuel r with
      | some (s, r') => some (ch :: s, r')
      | none => none
    if c = '"' then some ([], rest)
    else if c = '\\' then
      match rest with
      | [] => none
      | e :: rest' =>
        if e = 'u' then
          match rest' with
          | h1 :: h2 :: h3 :: h4 :: rest'' =>
            (match hexVal h1, hexVal h2, hexVal h3, hexVal h4 with
             | some a, some b, some c2, some d =>
               cont (Char.ofNat (a * 4096 + b * 256 + c2 * 16 + d)) rest''
             | _, _, _, _ => none)
          | _ => none
        else
          match escChar e with
          | some ch => cont ch rest'
          | none => none
    else if c.toNat < 32 then none
    else cont c rest

def parseStringBody (l : List Char) : Option (List Char × List Char) :=
  parseStringGo (l.length + 1) l

/-- Number lexeme: `-? (0 | [1-9][0-9]*) (\.[0-9]+)? ([eE][+-]?[0-9]+)?`. -/
def parseNumberLex (l : List Char) : Option (List Char × List Char) :=
  let sign : List Char × List Char :=
    match l with
    | '-' :: r => (['-'], r)
    | _ => ([], l)
  let (sg, l1) := sign
  match l1 with
  | [] => none
  | c :: r =>
    if c = '0' then some (sg ++ ['0'], r)
    else if isDigitCh c then
      let ds := r.takeWhile isDigitCh
      some (sg ++ c :: ds, r.dropWhile isDigitCh)
    else none

def parseFracPart (l : List Char) : List Char × List Char :=
  match l with
  | '.' :: r =>
    let ds := r.takeWhile isDigitCh
    if ds.isEmpty then ([], l) else ('.' :: ds, r.dropWhile isDigitCh)
  | _ => ([], l)

def parseExpPart (l : List Char) : Option (List Char × List Char) :=
  match l with
  | c :: r =>
    if c = 'e' || c = 'E' then
      let (sg, r1) : List Char × List Char :=
        match r with
        | s :: r' => if s = '+' || s = '-' then ([s], r') else ([], r)
        | [] => ([], r)
      let ds := r1.takeWhile isDigitCh
      if ds.isEmpty then none else some (c :: sg ++ ds, r1.dropWhile isDigitCh)
    else some ([], l)
  | [] => some ([], l)

def parseNumber (l : List Char) : Option (List Char × List Char) :=
  match parseNumberLex l with
  | none => none
  | some (ip, r1) =>
    let (fp, r2) := parseFracPart r1
    match parseExpPart r2 with
    | none => none
    | some (ep, r3) => some (ip ++ fp ++ ep, r3)

/- If the frac part fails to start (a `.` not followed by a digit),
`JSON.parse` rejects the text; `parseFracPart` returning the input
unchanged followed by the end-of-value check produces that rejection,
because the leftover `.` cannot continue the value. -/

mutual

def parseVal : Nat → List Char → Option (Json × List Char)
  | 0, _ => none
  | fuel + 1, l =>
    match l with
    | [] => none
    | '{' :: rest =>
      (match skipJsonWs rest with
       | '}' :: r => some (.obj [], r)
       | r => parseObjBody fuel r [])
    | '[' :: rest =>
      (match skipJsonWs rest with
       | ']' :: r => some (.arr [], r)
       | r => parseArrBody fuel r [])
    | '"' :: rest =>
      (match parseStringBody rest with
       | some (s, r) => some (.str s, r)
       | none => none)
    | c :: _ =>
      if c = 't' then
        (if ('t' :: 'r' :: 'u' :: 'e' :: []).isPrefixOf l then some (.bool true, l.drop 4) else none)
      else if c = 'f' then
        (if ('f' :: 'a' :: 'l' :: 's' :: 'e' :: []).isPrefixOf l then some (.bool false, l.drop 5) else none)
      else if c = 'n' then
        (if ('n' :: 'u' :: 'l' :: 'l' :: []).isPrefixOf l then some (.null, l.drop 4) else none)
      else if c = '-' || isDigitCh c then
        (match parseNumber l with
         | some (lex, r) => some (.num lex, r)
         | none => none)
      else none

def parseObjBody : Nat → List Char → List (List Char × Json) → Option (Json × List Char)
  | 0, _, _ => none
  | fuel + 1, l, acc =>
    match l with
    | '"' :: rest =>
      (match parseStringBody rest with
       | some (k, r1) =>
         (match skipJsonWs r1 with
          | ':' :: r2 =>
            (match parseVal fuel (skipJsonWs r2) with
             | some (v, r3) =>
               let acc' := setField k v acc
               (match skipJsonWs r3 with
                | ',' :: r4 => parseObjBody fuel (skipJsonWs r4) acc'
                | '}' :: r4 => some (.obj acc', r4)
                | _ => none)
             | none => none)
          | _ => none)
       | none => none)
    | _ => none

def parseArrBody : Nat → List Char → List Json → Option (Json × List Char)
  | 0, _, _ => none
  | fuel + 1, l, acc =>
    match parseVal fuel l with
    | some (v, r1) =>
      (match skipJsonWs r1 with
       | ',' :: r2 => parseArrBody fuel (skipJsonWs r2) (acc ++ [v])
       | ']' :: r2 => some (.arr (acc ++ [v]), r2)
       | _ => none)
    | none => none

end

/-- `JSON.parse`: whitespace, one value, whitespace, end of input. -/
def jsparse (l : List Char) : Option Json :=
  let l1 := skipJsonWs l
  match parseVal (l1.length + 1) l1 with
  | some (v, rest) => if (skipJsonWs rest).isEmpty then some v else none
  | none => none

/-! ### Post-parse validation and module-order defaulting
(ai-service.ts lines 242-263) -/

inductive GenError where
  | structureInvalid : GenError
  | unparseable : GenError
  | runtimeError : GenError
  | noContent (msg : List Char) : GenError
  deriving DecidableEq

def kTitle : List Char := "title".data
def kDescription : List Char := "description".data
def kModules : List Char := "modules".data
def kOrder : List Char := "order".data
def kDuration : List Char := "duration".data

/-- Decimal digits of a `Nat`. -/
def natLexGo : Nat → Nat → List Char → List Char
  | 0, _, acc => acc
  | fuel + 1, n, acc =>
    if n < 10 then Char.ofNat (n + 48) :: acc
    else natLexGo fuel (n / 10) (Char.ofNat (n % 10 + 48) :: acc)

def natLex (n : Nat) : List Char := natLexGo (n + 1) n []

def natJson (n : Nat) : Json := .num (natLex n)

/-- A JSON number lexeme denotes zero iff its mantissa has no digit
`1`-`9` (the exponent is irrelevant). -/
def lexIsZero (lex : List Char) : Bool :=
  (lex.takeWhile (fun c => !(c = 'e' || c = 'E'))).all
    (fun c => !('1' ≤ c && c ≤ '9'))

/-- JavaScript truthiness of a possibly-undefined value (`none` models
`undefined`). -/
def jsTruthy : Option Json → Bool
  | none => false
  | some .null => false
  | some (.bool b) => b
  | some (.num lex) => !lexIsZero lex
  | some (.str s) => !s.isEmpty
  | some (.arr _) => true
  | some (.obj _) => true

/-- `Array.isArray`. -/
def isArrayOpt : Option Json → Bool
  | some (.arr _) => true
  | _ => false

/-- Own enumerable properties contributed by an object-literal spread
`{...v}`: an object's fields; index properties for arrays and strings;
nothing for the primitives. -/
def spreadFields : Json → List (List Char × Json)
  | .obj fs => fs
  | .arr xs => (List.range xs.length).zip xs |>.map (fun (i, x) => (natLex i, x))
  | .str s => (List.range s.length).zip s |>.map (fun (i, c) => (natLex i, .str [c]))
  | _ => []

/-- `{...m, k: v}`. -/
def jsSpreadSet (m : Json) (k : List Char) (v : Json) : Json :=
  .obj (setField k v (spreadFields m))

/-- One step of `modules.map((module, index) => ({...module, order:
module.order ?? index + 1}))`.  The property read `module.order` throws
on a `null` element, modelled by `none`. -/
def defaultModule (i : Nat) (m : Json) : Option Json :=
  match m with
  | .null => none
  | _ =>
    let o : Json :=
      match jsGet m kOrder with
      | some .null => natJson (i + 1)
      | some v => v
      | none => natJson (i + 1)
    some (jsSpreadSet m kOrder o)

def defaultModulesGo : List Json → Nat → Option (List Json)
  | [], _ => some []
  | m :: ms, i =>
    match defaultModule i m, defaultModulesGo ms (i + 1) with
    | some m', some ms' => some (m' :: ms')
    | _, _ => none

/-- Lines 253-263: re-map the modules array defaulting missing orders
to the 1-based position, and rebuild the result object. -/
def defaultOrders (v : Json) : Option Json :=
  match jsGet v kModules with
  | some (.arr ms) =>
    (match defaultModulesGo ms 0 with
     | some ms' => some (jsSpreadSet v kModules (.arr ms'))
     | none => none)
  | _ => none

/-- Lines 242-263: the structure check applied to every successful
parse attempt, followed by the order-defaulting map.  Reading `.title`
of a `null` candidate throws in JavaScript (`runtimeError`); every
other candidate that misses a non-empty (truthy) title, a non-empty
(truthy) description or an array `modules` is rejected as
structure-invalid. -/
def validateStructure (v : Json) : Except GenError Json :=
  match v with
  | .null => .error .runtimeError
  | _ =>
    if jsTruthy (jsGet v kTitle) && jsTruthy (jsGet v kDescription)
        && isArrayOpt (jsGet v kModules) then
      match defaultOrders v with
      | some r => .ok r
      | none => .error .runtimeError
    else .error .structureInvalid

/-! ### Tier-3 field-extraction fallback (ai-service.ts lines 197-230) -/

def litTitle : List Char := "\"title\"".data
def litDescription : List Char := "\"description\"".data
def litModules : List Char := "\"modules\"".data
def litOrder : List Char := "\"order\"".data

/-- Try `LIT\s*:\s*"(CAP)"` at the current position (`CAP` is `[^"]+`
when `allowEmpty = false`, `[^"]*` otherwise).  Returns the capture and
the remainder after the closing quote. -/
def tryFieldAt (lit : List Char) (allowEmpty : Bool) (l : List Char) :
    Option (List Char × List Char) :=
  if lit.isPrefixOf l then
    match (l.drop lit.length).dropWhile isJsWs with
    | ':' :: r2 =>
      (match r2.dropWhile isJsWs with
       | '"' :: r3 =>
         let cap := r3.takeWhile (fun c => !(c = '"'))
         (match r3.dropWhile (fun c => !(c = '"')) with
          | '"' :: r5 =>
            if cap.isEmpty && !allowEmpty then none else some (cap, r5)
          | _ => none)
       | _ => none)
    | _ => none
  else none

/-- Leftmost occurrence of a string-valued field pattern, e.g.
`/"title"\s*:\s*"([^"]+)"/`. -/
def findFieldGo (lit : List Char) (allowEmpty : Bool) : Nat → List Char → Option (List Char × List Char)
  | 0, _ => none
  | _, [] => none
  | fuel + 1, l =>
    match tryFieldAt lit allowEmpty l with
    | some r => some r
    | none =>
      match l with
      | [] => none
      | _ :: rest => findFieldGo lit allowEmpty fuel rest

def findField (lit : List Char) (allowEmpty : Bool) (l : List Char) :
    Option (List Char × List Char) :=
  findFieldGo lit allowEmpty (l.length + 1) l

/-- Try `"order"\s*:\s*(\d+)` at the current position. -/
def tryOrderAt (l : List Char) : Option (Nat × List Char) :=
  if litOrder.isPrefixOf l then
    match (l.drop litOrder.length).dropWhile isJsWs with
    | ':' :: r2 =>
      let r3 := r2.dropWhile isJsWs
      let ds := r3.takeWhile isDigitCh
      if ds.isEmpty then none
      else some (ds.foldl (fun n c => n * 10 + (c.toNat - 48)) 0, r3.dropWhile isDigitCh)
    | _ => none
  else none

def findOrderGo : Nat → List Char → Option (Nat × List Char)
  | 0, _ => none
  | _, [] => none
  | fuel + 1, l =>
    match tryOrderAt l with
    | some r => some r
    | none =>
      match l with
      | [] => none
      | _ :: rest => findOrderGo fuel rest

def findOrder (l : List Char) : Option (Nat × List Char) :=
  findOrderGo (l.length + 1) l

/-- The raw text of the modules array:
`/"modules"\s*:\s*\[([\s\S]*)\]/` — after the opening bracket, the
greedy group extends to the last `]` of the string. -/
def tryModulesAt (l : List Char) : Option (List Char) :=
  if litModules.isPrefixOf l then
    match (l.drop litModules.length).dropWhile isJsWs with
    | ':' :: r2 =>
      (match r2.dropWhile isJsWs with
       | '[' :: r3 =>
         (match r3.reverse.dropWhile (fun c => !(c = ']')) with
          | _ :: grev => some grev.reverse
          | [] => none)
       | _ => none)
    | _ => none
  else none

def findModulesGo : Nat → List Char → Option (List Char)
  | 0, _ => none
  | _, [] => none
  | fuel + 1, l =>
    match tryModulesAt l with
    | some r => some r
    | none =>
      match l with
      | [] => none
      | _ :: rest => findModulesGo fuel rest

def findModulesArr (l : List Char) : Option (List Char) :=
  findModulesGo (l.length + 1) l

/-- A module draft recovered by the tier-3 fallback (lines 210-217):
title, description, numeric order — and nothing else. -/
structure ModDraft where
  title : List Char
  desc : List Char
  order : Nat
  deriving DecidableEq

/-- The lazy module-fragment regex
`/\{[\s\S]*?"title"\s*:\s*"([^"]+)"[\s\S]*?"description"\s*:\s*"([^"]*)"[\s\S]*?"order"\s*:\s*(\d+)[\s\S]*?\}/g`
matched at one `{`: the lazy gaps land each component on its first
occurrence after the previous one; the match ends at the first `}`
after the digits. -/
def moduleChainAt (l : List Char) : Option (ModDraft × List Char) :=
  match findField litTitle false l with
  | some (t, r1) =>
    (match findField litDescription true r1 with
     | some (d, r2) =>
       (match findOrder r2 with
        | some (o, r3) =>
          (match r3.dropWhile (fun c => !(c = '}')) with
           | '}' :: r4 => some (⟨t, d, o⟩, r4)
           | _ => none)
        | none => none)
     | none => none)
  | none => none

/-- `matchAll` of the module-fragment regex: leftmost matches, each
starting at a `{`, resuming after the end of the previous match. -/
def collectModulesGo : Nat → List Char → List ModDraft
  | 0, _ => []
  | _, [] => []
  | fuel + 1, c :: rest =>
    if c = '{' then
      match moduleChainAt rest with
      | some (m, r4) => m :: collectModulesGo fuel r4
      | none => collectModulesGo fuel rest
    else collectModulesGo fuel rest

def collectModules (l : List Char) : List ModDraft :=
  collectModulesGo (l.length + 1) l

/-- Stable ascending insertion by `order`: a new draft goes after every
already-placed draft with `order ≤` its own.  A stable sort with the
comparator `(a, b) => a.order - b.order` produces exactly this
arrangement. -/
def insertDraft (m : ModDraft) : List ModDraft → List ModDraft
  | [] => [m]
  | x :: xs => if x.order ≤ m.order then x :: insertDraft m xs else m :: x :: xs

def sortDrafts (l : List ModDraft) : List ModDraft :=
  l.foldl (fun acc m => insertDraft m acc) []

def draftJson (m : ModDraft) : Json :=
  .obj [(kTitle, .str m.title), (kDescription, .str m.desc), (kOrder, natJson m.order)]

/-- `descMatch ? descMatch[1] : ""` (line 222). -/
def tier3Desc (jc : List Char) : List Char :=
  match findField litDescription true jc with
  | some (dc, _) => dc
  | none => []

/-- Lines 197-230: the tier-3 candidate.  Requires a located title and
a located modules array and at least one recovered module fragment;
the drafts are sorted ascending by order; a missing description
defaults to the empty string. -/
def tier3Data (jc : List Char) : Option Json :=
  match findField litTitle false jc, findModulesArr jc with
  | some (t, _), some g =>
    let mods := collectModules g
    if mods.isEmpty then none
    else
      some (.obj [(kTitle, .str t), (kDescription, .str (tier3Desc jc)),
                  (kModules, .arr ((sortDrafts mods).map draftJson))])
  | _, _ => none

/-! ### The assembled response-recovery parser -/

/-- The text the tier-1 strict parse attempt sees (lines 136-162):
trim, strip fences, extract the brace-balanced region, remove trailing
commas, apply the five comma-insertion patterns. -/
def tier1String (l : List Char) : List Char :=
  fixArrStr (fixObjStr (fixArrArr (fixObjObj (fixStrStr
    (remTrailingCommas (extractObjectOr (stripFences (jsTrim l))))))))

/-- The text the tier-2 repaired parse attempt sees (lines 172-189). -/
def tier2String (l : List Char) : List Char :=
  remTrailingCommas (aggrFix3 (aggrFix2 (aggrFix1 (braceSubstring (tier1String l)))))

/-- The response-recovery parser (lines 136-263): strict attempt,
repaired attempt, field-extraction fallback, each feeding the common
post-parse validation; terminal failure is the response-unparseable
error. -/
def recoverCourse (l : List Char) : Except GenError Json :=
  match jsparse (tier1String l) with
  | some v => validateStructure v
  | none =>
    match jsparse (tier2String l) with
    | some v => validateStructure v
    | none =>
      match tier3Data (tier2String l) with
      | some v => validateStructure v
      | none => .error .unparseable

/-- Spec-side comparator ("the result of parsing that JSON directly,
with `order` defaulted to 1-based position when absent"): a plain
`JSON.parse` of the text followed by the same validation and
defaulting. -/
def directParse (l : List Char) : Except GenError Json :=
  match jsparse l with
  | some v => validateStructure v
  | none => .error .unparseable

/-! ### AI client (`src/lib/ai-client.ts`) -/

def AVAILABLE_MODELS : List (List Char) :=
  ["gemini-1.5-pro".data, "gemini-1.5-flash".data, "gemini-pro".data,
   "gemini-2.0-flash-exp".data]

/-- `new GoogleGenerativeAI(process.env.GEMINI_API_KEY ?? "")` (line
11): construction is total — a missing key becomes the empty string. -/
structure GeminiClient where
  apiKey : List Char

def mkGeminiClient (envKey : Option (List Char)) : GeminiClient :=
  { apiKey := match envKey with | some k => k | none => [] }

/-- `listAvailableModels` (lines 31-67).  `net` is the outcome of the
models-discovery fetch, already filtered to the identifiers supporting
`generateContent`: `.error` models an unreachable endpoint.  With no
API key the fixed fallback list is returned at once. -/
def listAvailableModels (envKey : Option (List Char))
    (net : Except Unit (List (List Char))) : List (List Char) :=
  match envKey with
  | none => AVAILABLE_MODELS
  | some _ =>
    match net with
    | .ok models => if models.isEmpty then AVAILABLE_MODELS else models
    | .error _ => AVAILABLE_MODELS

/-! ### Model-fallback loop (ai-service.ts lines 70-134) -/

/-- Outcomes of the provider calls: for each model identifier, the
JSON-output-mode call and the plain-mode call either return text or
throw with a message. -/
structure AIEnv where
  jsonMode : List Char → Except (List Char) (List Char)
  plainMode : List Char → Except (List Char) (List Char)

/-- The text a single loop iteration assigns to `content` (lines
85-122): the JSON-mode text if that call does not throw, otherwise the
plain-mode text; `none` when both throw. -/
def attemptContent (env : AIEnv) (name : List Char) : Option (List Char) :=
  match env.jsonMode name with
  | .ok c => some c
  | .error _ =>
    match env.plainMode name with
    | .ok c => some c
    | .error _ => none

/-- The error recorded by the iteration's outer `catch` (lines
123-127): only a throw of the plain-mode fallback reaches it. -/
def attemptError (env : AIEnv) (name : List Char) : Option (List Char) :=
  match env.jsonMode name with
  | .ok _ => none
  | .error _ =>
    match env.plainMode name with
    | .ok _ => none
    | .error e => some e

/-- The for-loop over candidate models: returns the first non-empty
content, the final `lastError`, and the list of identifiers actually
tried (in order). -/
def runModelsGo (env : AIEnv) :
    List (List Char) → Option (List Char) →
    Option (List Char) × Option (List Char) × List (List Char)
  | [], le => (none, le, [])
  | n :: ns, le =>
    let le' : Option (List Char) :=
      match attemptError env n with
      | some e => some e
      | none => le
    match attemptContent env n with
    | some c =>
      if c.isEmpty then
        let (r, lf, tr) := runModelsGo env ns le'
        (r, lf, n :: tr)
      else (some c, le', [n])
    | none =>
      let (r, lf, tr) := runModelsGo env ns le'
      (r, lf, n :: tr)

def joinComma : List (List Char) → List Char
  | [] => []
  | [x] => x
  | x :: xs => x ++ ", ".data ++ joinComma xs

/-- The error thrown when no model produced content (lines 130-134). -/
def noContentMsg (names : List (List Char)) (lastErr : Option (List Char)) : List Char :=
  "No content received from Gemini. Tried models: ".data ++ joinComma names
    ++ ". Last error: ".data
    ++ (match lastErr with | some e => e | none => "Unknown error".data)
    ++ ". Please check your GEMINI_API_KEY and ensure it has access to Gemini models.".data

/-- The outer catch's wrapper (lines 264-269). -/
def failPrefix : List Char := "Failed to generate course syllabus: ".data

/-- Lines 72-78: dynamic model list with fallback to the static one. -/
def modelsToTry (envKey : Option (List Char))
    (net : Except Unit (List (List Char))) : List (List Char) :=
  let l := listAvailableModels envKey net
  if l.isEmpty then AVAILABLE_MODELS else l

/-- `AIService.generateCourseSyllabus`, given the call outcomes:
chooses the candidate list, runs the fallback loop, and on success
feeds the text to the recovery parser.  Also returns the trace of
model identifiers called. -/
def generateCourseSyllabus (env : AIEnv) (envKey : Option (List Char))
    (net : Except Unit (List (List Char))) :
    Except GenError Json × List (List Char) :=
  let models := modelsToTry envKey net
  match runModelsGo env models none with
  | (some c, _, tr) => (recoverCourse c, tr)
  | (none, le, tr) =>
    (.error (.noContent (failPrefix ++ noContentMsg models le)), tr)

/-! ### Input validation (`src/types/index.ts`) and the server action -/

def DIFFICULTY_LEVELS : List (List Char) :=
  ["beginner".data, "intermediate".data, "advanced".data]

def msgTopicRequired : List Char := "Topic is required".data
def msgTopicTooLong : List Char := "Topic must be less than 200 characters".data
def msgDifficultyEnum : List Char :=
  "Difficulty must be beginner, intermediate, or advanced".data
/-- zod's invalid-type message when `formData.get` returned `null`. -/
def msgTopicNotString : List Char := "Expected string, received null".data

/-- `GenerateCourseSchema.safeParse` followed by
`error.errors[0]?.message`: zod checks the object keys in declaration
order (`topic` before `difficulty`) and within `topic` the `min` rule
before the `max` rule, so the returned message is the first violated
rule's. -/
def validateGenerateInput :
    Option (List Char) → Option (List Char) →
    Except (List Char) (List Char × List Char)
  | none, _ => .error msgTopicNotString
  | some t, difficulty =>
    if t.isEmpty then .error msgTopicRequired
    else if 200 < t.length then .error msgTopicTooLong
    else
      match difficulty with
      | none => .error msgDifficultyEnum
      | some d =>
        if DIFFICULTY_LEVELS.contains d then .ok (t, d)
        else .error msgDifficultyEnum

inductive ServiceCall where
  | getOrCreateUser : ServiceCall
  | generateSyllabus : ServiceCall
  | createCourse : ServiceCall
  deriving DecidableEq

structure GenerateResponse where
  success : Bool
  error   : Option (List Char)
  deriving DecidableEq

/-- Messages of the parser errors surfaced by the service (the
interpolated original parse-error text is elided). -/
def genErrorMsg : GenError → List Char
  | .noContent m => m
  | .unparseable => failPrefix ++ "Invalid JSON received from AI. The response contains malformed JSON that couldn't be automatically fixed. Please try generating again.".data
  | .structureInvalid => failPrefix ++ "Invalid course data structure received from AI".data
  | .runtimeError => failPrefix ++ "TypeError".data

/-- Environment of the `generateCourse` server action: provider-call
outcomes plus the outcomes of the two persistence calls. -/
structure ActionEnv where
  ai : AIEnv
  apiKey : Option (List Char)
  net : Except Unit (List (List Char))
  dbUser : Except (List Char) Unit
  dbCreate : Except (List Char) Unit

/-- The `generateCourse` server action (src/unnamed/part_000): validate
with the schema — returning the first issue's message and touching no
service on failure — then find-or-create the demo user, generate, and
persist; any thrown error becomes a `success: false` response.  The
second component is the trace of service calls made. -/
def generateCourse (env : ActionEnv) (topic difficulty : Option (List Char)) :
    GenerateResponse × List ServiceCall :=
  match validateGenerateInput topic difficulty with
  | .error m => ({ success := false, error := some m }, [])
  | .ok _ =>
    match env.dbUser with
    | .error e => ({ success := false, error := some e }, [.getOrCreateUser])
    | .ok _ =>
      match (generateCourseSyllabus env.ai env.apiKey env.net).1 with
      | .error ge =>
        ({ success := false, error := some (genErrorMsg ge) },
         [.getOrCreateUser, .generateSyllabus])
      | .ok _ =>
        match env.dbCreate with
        | .error e =>
          ({ success := false, error := some e },
           [.getOrCreateUser, .generateSyllabus, .createCourse])
        | .ok _ =>
          ({ success := true, error := none },
           [.getOrCreateUser, .generateSyllabus, .createCourse])

/-! ### Persistence service (`src/services/course-service.ts`) -/

structure SyllabusModuleData where
  title : List Char
  description : List Char
  order : Nat
  duration : Option (List Char)
  deriving DecidableEq

structure CourseData where
  title : List Char
  description : List Char
  modules : List SyllabusModuleData
  deriving DecidableEq

structure UserRow where
  id : Nat
  email : List Char
  name : List Char
  deriving DecidableEq

structure CourseRow where
  id : Nat
  title : List Char
  topic : List Char
  difficulty : List Char
  description : List Char
  userId : Nat
  deriving DecidableEq

structure ModuleRow where
  id : Nat
  courseId : Nat
  title : List Char
  description : List Char
  order : Nat
  duration : Option (List Char)
  deriving DecidableEq

structure DBState where
  users : List UserRow
  courses : List CourseRow
  modules : List ModuleRow
  nextId : Nat
  deriving DecidableEq

/-- Which low-level inserts fail (a storage-level I/O failure). -/
structure StoreEnv where
  courseInsertFails : Bool
  moduleInsertFails : SyllabusModuleData → Bool

/-- Sequentially insert the module rows inside the transaction,
failing if any single insert fails. -/
def insertModules (env : StoreEnv) (cid : Nat) :
    List SyllabusModuleData → DBState → Except Unit DBState
  | [], st => .ok st
  | m :: ms, st =>
    if env.moduleInsertFails m then .error ()
    else
      insertModules env cid ms
        { st with
          modules := st.modules ++
            [{ id := st.nextId, courseId := cid, title := m.title,
               description := m.description, order := m.order,
               duration := m.duration }],
          nextId := st.nextId + 1 }

/-- The working state right after the course row is inserted inside
the transaction. -/
def courseInsertState (st : DBState) (userId : Nat)
    (topic difficulty : List Char) (cd : CourseData) : DBState :=
  { st with
    courses := st.courses ++
      [{ id := st.nextId, title := cd.title, topic := topic,
         difficulty := difficulty, description := cd.description,
         userId := userId }],
    nextId := st.nextId + 1 }

/-- `CourseService.createCourseWithModules` (lines 24-62).  The course
row and all module rows are created inside `prisma.$transaction`.

Modelled from the spec: the transactional boundary itself
(`prisma.$transaction`) is external library code not present in the
repository; per the spec it is all-or-nothing, so on any failure the
returned visible state is the input state unchanged. -/
def createCourseWithModules (env : StoreEnv) (st : DBState)
    (userId : Nat) (topic difficulty : List Char) (cd : CourseData) :
    DBState × Except Unit Nat :=
  let body : Except Unit (DBState × Nat) :=
    if env.courseInsertFails then .error ()
    else
      match insertModules env st.nextId cd.modules
          (courseInsertState st userId topic difficulty cd) with
      | .ok st2 => .ok (st2, st.nextId)
      | .error e => .error e
  match body with
  | .ok (st', cid) => (st', .ok cid)
  | .error e => (st, .error e)

/-- `CourseService.getOrCreateUser` (lines 93-102):
`prisma.user.upsert({where: {email}, update: {}, create: {email, name:
name ?? 'Demo User'}})`.

Modelled from the spec: `upsert` is external library code; find-or-create
by the unique email, and an `update: {}` clause changes no stored
field of an existing row. -/
def getOrCreateUser (st : DBState) (email : List Char)
    (name : Option (List Char)) : UserRow × DBState :=
  match st.users.find? (fun u => u.email = email) with
  | some u => (u, st)
  | none =>
    let u : UserRow :=
      { id := st.nextId, email := email,
        name := match name with | some n => n | none => "Demo User".data }
    (u, { st with users := st.users ++ [u], nextId := st.nextId + 1 })

/-! ### Spec-side descriptions used by the theorems -/

/-- The tier-1 syntax normalization in isolation (lines 152-162). -/
def normalizeTier1 (t : List Char) : List Char :=
  fixArrStr (fixObjStr (fixArrArr (fixObjObj (fixStrStr (remTrailingCommas t)))))

/-- The candidate object produced by whichever parse attempt first
succeeds: strict, repaired, or field-extraction. -/
def recoverCandidate (l : List Char) : Option Json :=
  match jsparse (tier1String l) with
  | some v => some v
  | none =>
    match jsparse (tier2String l) with
    | some v => some v
    | none => tier3Data (tier2String l)

def modulesOf (v : Json) : List Json :=
  match jsGet v kModules with
  | some (.arr ms) => ms
  | _ => []

def fieldKeys : Json → List (List Char)
  | .obj fs => fs.map (fun f => f.1)
  | _ => []

/-- A markdown-fenced wrapping of a JSON text. -/
def wrapFence (t : List Char) : List Char :=
  '`' :: '`' :: '`' :: 'j' :: 's' :: 'o' :: 'n' :: '\n' ::
    (t ++ ('\n' :: '`' :: '`' :: '`' :: []))

/-- `s` is `j` with the single comma between two adjacent string-valued
lines removed: in `j` a string ends, a comma follows, then whitespace
containing a newline, then the next line's string begins. -/
def missingCommaShape (s j : List Char) : Prop :=
  ∃ p w1 w2 q, (w1 ++ w2).all isJsWs = true ∧
    s = p ++ '"' :: (w1 ++ '\n' :: w2) ++ '"' :: q ∧
    j = p ++ '"' :: ',' :: (w1 ++ '\n' :: w2) ++ '"' :: q

/-- The value of `lastError` after attempting a list of models. -/
def lastThrown (env : AIEnv) : List (List Char) → Option (List Char) → Option (List Char)
  | [], le => le
  | n :: ns, le =>
    lastThrown env ns
      (match attemptError env n with | some e => some e | none => le)

/-- The model produced no usable text: both modes threw, or the call
chain returned the empty string. -/
def noContentFrom (env : AIEnv) (n : List Char) : Prop :=
  attemptContent env n = none ∨ attemptContent env n = some []

/-! Concrete inputs for counterexamples and witnesses. -/

/-- Well-formed JSON whose title contains `,}`: the tier-1
trailing-comma removal rewrites inside the string literal. -/
def c1cexStr : List Char :=
  "\x7b\"title\":\"x,\x7d\",\"description\":\"d\",\"modules\":[]\x7d".data

def c1witJson : List Char :=
  "\x7b\"title\":\"T\",\"description\":\"D\",\"modules\":[\x7b\"title\":\"M\",\"description\":\"d\"\x7d]\x7d".data

/-- Missing comma between the two string-valued lines, and the title
contains `,]`. -/
def c5cexStr : List Char :=
  "\x7b\"title\":\"a,]b\"\n\"description\":\"D\",\"modules\":[]\x7d".data

/-- The comma-corrected form of `c5cexStr`. -/
def c5corStr : List Char :=
  "\x7b\"title\":\"a,]b\",\n\"description\":\"D\",\"modules\":[]\x7d".data

def c5witStr : List Char :=
  "\x7b\"title\":\"T\"\n\"description\":\"D\",\"modules\":[]\x7d".data

def c5witCor : List Char :=
  "\x7b\"title\":\"T\",\n\"description\":\"D\",\"modules\":[]\x7d".data

/-- Fails the strict and repaired parses (stray token before the final
brace); its single module fragment lists `order` before `title` and
`description`. -/
def c2cexStr : List Char :=
  "\x7b\"title\": \"T\", \"modules\": [\x7b\"order\": 1, \"title\": \"M\", \"description\": \"D\"\x7d] oops\x7d".data

/-- Fails the strict and repaired parses (missing comma between the
two module objects on one line); both fragments are recoverable and
arrive out of order. -/
def c2witStr : List Char :=
  "\x7b\"title\":\"T\",\"description\":\"D\",\"modules\":[\x7b\"title\":\"A\",\"description\":\"a\",\"order\":2\x7d\x7b\"title\":\"B\",\"description\":\"b\",\"order\":1\x7d]\x7d".data

/-- A module fragment that carries a `duration` value. -/
def c9witStr : List Char :=
  "\x7b\"title\":\"T\",\"modules\":[\x7b\"title\":\"A\",\"description\":\"a\",\"duration\":\"2 hours\",\"order\":1\x7d] x".data

def c4witStr : List Char :=
  "\x7b\"title\":\"t\",\"description\":\"d\",\"modules\":[]\x7d".data

/-- Course data with three modules; used to exercise atomicity. -/
def c6data : CourseData :=
  { title := "Course".data, description := "Desc".data,
    modules :=
      [{ title := "m1".data, description := "d1".data, order := 1, duration := some "1h".data },
       { title := "m2".data, description := "d2".data, order := 2, duration := none },
       { title := "m3".data, description := "d3".data, order := 3, duration := none }] }

/-- Storage in which inserting the second module fails. -/
def c6envFail : StoreEnv :=
  { courseInsertFails := false,
    moduleInsertFails := fun m => m.title = "m2".data }

def c6envOk : StoreEnv :=
  { courseInsertFails := false, moduleInsertFails := fun _ => false }

def c6st : DBState :=
  { users := [{ id := 0, email := "demo@example.com".data, name := "Demo User".data }],
    courses := [], modules := [], nextId := 1 }

/-- Provider behaviour where the first candidate returns the empty
string and the second returns a parseable course. -/
def c3text : List Char :=
  "\x7b\"title\":\"C\",\"description\":\"c\",\"modules\":[]\x7d".data

def c3envA : AIEnv :=
  { jsonMode := fun n => if n = "gemini-1.5-flash".data then .ok c3text else .ok [],
    plainMode := fun _ => .error "unreachable".data }

/-- Provider behaviour where every call throws. -/
def c3envB : AIEnv :=
  { jsonMode := fun _ => .error "json mode rejected".data,
    plainMode := fun _ => .error "boom".data }

def c8env : ActionEnv :=
  { ai := c3envB, apiKey := none, net := .error (),
    dbUser := .ok (), dbCreate := .ok () }

def c10st : DBState :=
  { users := [{ id := 0, email := "a@b.c".data, name := "Alice".data }],
    courses := [], modules := [], nextId := 1 }

/-- The title string of a parse outcome, for comparing results. -/
def titleOf (e : Except GenError Json) : Option (List Char) :=
  match e with
  | .ok v =>
    (match jsGet v kTitle with
     | some (.str s) => some s
     | _ => none)
  | .error _ => none

/-! ## Theorems -/

theorem dropWhile_cons_false {p : Char → Bool} {a : Char} {l : List Char}
    (h : p a = false) : List.dropWhile p (a :: l) = a :: l := by
  simp [List.dropWhile, h]

theorem reverse_eq_cons_of_getLast? {l : List Char} {d : Char}
    (h : l.getLast? = some d) : ∃ tr, l.reverse = d :: tr := by
  cases hrev : l.reverse with
  | nil =>
    have hnil : l = [] := by
      have := congrArg List.reverse hrev
      simpa using this
    subst hnil
    simp at h
  | cons x xs =>
    have hx : l.reverse.head? = some x := by rw [hrev]; rfl
    rw [List.head?_reverse] at hx
    rw [h] at hx
    cases hx
    exact ⟨xs, rfl⟩

theorem jsTrim_eq_self {l : List Char} {c d : Char} {tl tr : List Char}
    (h1 : l = c :: tl) (h2 : l.reverse = d :: tr)
    (hc : isJsWs c = false) (hd : isJsWs d = false) :
    jsTrim l = l := by
  unfold jsTrim
  rw [h1, dropWhile_cons_false hc, ← h1, h2, dropWhile_cons_false hd, ← h2,
      List.reverse_reverse]

theorem stripFences_self {t' : List Char} :
    stripFences ('{' :: t') = '{' :: t' := by
  unfold stripFences
  rw [if_neg (by simp [fenceJson, List.isPrefixOf]),
      if_neg (by simp [fenceBare, List.isPrefixOf])]

theorem extractObjectOr_self {t' tr : List Char}
    (h2 : ('{' :: t').reverse = '}' :: tr) :
    extractObjectOr ('{' :: t') = '{' :: t' := by
  simp only [extractObjectOr, extractObject]
  rw [dropWhile_cons_false rfl, h2, dropWhile_cons_false rfl]
  simp only [List.isEmpty_cons, Bool.or_self, Bool.false_eq_true, if_false]
  rw [← h2, List.reverse_reverse]

theorem stripFences_wrap {t' tr : List Char}
    (h2 : ('{' :: t').reverse = '}' :: tr) :
    stripFences (wrapFence ('{' :: t')) = '{' :: t' := by
  have hpre : fenceJson.isPrefixOf (wrapFence ('{' :: t')) = true := by
    simp [fenceJson, wrapFence, List.isPrefixOf]
  simp only [stripFences]
  rw [if_pos hpre]
  rw [show (wrapFence ('{' :: t')).drop 7 =
      '\n' :: ('{' :: (t' ++ ('\n' :: '`' :: '`' :: '`' ::[]))) from rfl]
  rw [show List.dropWhile isJsWs
      ('\n' :: ('{' :: (t' ++ ('\n' :: '`' :: '`' :: '`' ::[])))) =
      '{' :: (t' ++ ('\n' :: '`' :: '`' :: '`' ::[])) from by
    simp [List.dropWhile, show isJsWs '\n' = true from rfl,
      show isJsWs '{' = false from rfl]]
  simp only [stripTrailingFence]
  have hrev : ('{' :: (t' ++ ('\n' :: '`' :: '`' :: '`' ::[]))).reverse =
      '`' :: '`' :: '`' :: '\n' :: (('{' :: t').reverse) := by simp
  rw [hrev, if_pos (by simp [fenceBare, List.isPrefixOf])]
  rw [show ('`' :: '`' :: '`' :: '\n' :: (('{' :: t').reverse)).drop 3 =
      '\n' :: (('{' :: t').reverse) from rfl]
  rw [show List.dropWhile isJsWs ('\n' :: (('{' :: t').reverse)) =
      List.dropWhile isJsWs (('{' :: t').reverse) from by
    simp [List.dropWhile, show isJsWs '\n' = true from rfl]]
  rw [h2, dropWhile_cons_false rfl, ← h2, List.reverse_reverse]

theorem tier1String_eq_normalize {t' tr : List Char}
    (h2 : ('{' :: t').reverse = '}' :: tr) :
    tier1String ('{' :: t') = normalizeTier1 ('{' :: t') := by
  unfold tier1String normalizeTier1
  rw [jsTrim_eq_self rfl h2 rfl rfl, stripFences_self, extractObjectOr_self h2]

theorem tier1String_wrap_eq_normalize {t' tr : List Char}
    (h2 : ('{' :: t').reverse = '}' :: tr) :
    tier1String (wrapFence ('{' :: t')) = normalizeTier1 ('{' :: t') := by
  unfold tier1String normalizeTier1
  have hw1 : wrapFence ('{' :: t') = '`' ::
      ('`' :: '`' :: 'j' :: 's' :: 'o' :: 'n' :: '\n' ::
        (('{' :: t') ++ ('\n' :: '`' :: '`' :: '`' ::[]))) := rfl
  have hw2 : (wrapFence ('{' :: t')).reverse = '`' ::
      ('`' :: '`' :: '\n' ::[] ++ (('{' :: t').reverse ++
        ('\n' :: 'n' :: 'o' :: 's' :: 'j' :: '`' :: '`' :: '`' ::[]))) := by
    simp [wrapFence]
  rw [jsTrim_eq_self hw1 hw2 rfl rfl, stripFences_wrap h2, extractObjectOr_self h2]

theorem lookupField_setField_same (k : List Char) (v : Json)
    (fs : List (List Char × Json)) :
    lookupField k (setField k v fs) = some v := by
  induction fs with
  | nil => simp [setField, lookupField]
  | cons f fs ih =>
    obtain ⟨k', v'⟩ := f
    by_cases h : k' = k
    · simp [setField, h, lookupField]
    · simp [setField, h, lookupField, ih]

/-- The parser is the candidate selection followed by the one
validation step. -/
theorem recoverCourse_candidate (l : List Char) :
    recoverCourse l =
      (match recoverCandidate l with
       | some v => validateStructure v
       | none => .error .unparseable) := by
  unfold recoverCourse recoverCandidate
  cases jsparse (tier1String l) with
  | some v => rfl
  | none =>
    cases jsparse (tier2String l) with
    | some v => rfl
    | none =>
      cases tier3Data (tier2String l) with
      | some v => rfl
      | none => rfl

theorem validateStructure_ok {v r : Json} (h : validateStructure v = .ok r) :
    defaultOrders v = some r := by
  have step : ∀ w : Json,
      (if jsTruthy (jsGet w kTitle) && jsTruthy (jsGet w kDescription)
          && isArrayOpt (jsGet w kModules) then
        (match defaultOrders w with
         | some r' => (Except.ok r' : Except GenError Json)
         | none => .error .runtimeError)
       else .error .structureInvalid) = .ok r → defaultOrders w = some r := by
    intro w hw
    by_cases hc : (jsTruthy (jsGet w kTitle) && jsTruthy (jsGet w kDescription)
        && isArrayOpt (jsGet w kModules)) = true
    · rw [if_pos hc] at hw
      cases hdo : defaultOrders w with
      | none => rw [hdo] at hw; cases hw
      | some r' =>
        rw [hdo] at hw
        have hw' : (Except.ok r' : Except GenError Json) = Except.ok r := hw
        injection hw' with hrr
        rw [hrr]
    · rw [if_neg hc] at hw; cases hw
  cases v with
  | null => simp [validateStructure] at h
  | bool b => exact step (.bool b) h
  | num lex => exact step (.num lex) h
  | str s => exact step (.str s) h
  | arr xs => exact step (.arr xs) h
  | obj fs => exact step (.obj fs) h

theorem defaultModulesGo_get :
    ∀ (ms : List Json) (j : Nat) (ms' : List Json),
      defaultModulesGo ms j = some ms' →
      ∀ i m, ms.get? i = some m → jsGet m kOrder = none →
        ms'.get? i = some (jsSpreadSet m kOrder (natJson (j + i + 1))) := by
  intro ms
  induction ms with
  | nil => intro j ms' _ i m hm; cases i <;> cases hm
  | cons m0 ms ih =>
    intro j ms' h i m hm hno
    simp only [defaultModulesGo] at h
    cases hd0 : defaultModule j m0 with
    | none => rw [hd0] at h; cases h
    | some m0' =>
      cases hds : defaultModulesGo ms (j + 1) with
      | none => rw [hd0, hds] at h; cases h
      | some rest =>
        rw [hd0, hds] at h
        cases h
        have hstep : ∀ (w w' : Json), defaultModule j w = some w' →
            jsGet w kOrder = none →
            w' = jsSpreadSet w kOrder (natJson (j + 1)) := by
          intro w w' hd hn
          cases w with
          | null => simp [defaultModule] at hd
          | bool b =>
            simp only [defaultModule, hn, Option.some.injEq] at hd
            exact hd.symm
          | num lex =>
            simp only [defaultModule, hn, Option.some.injEq] at hd
            exact hd.symm
          | str s =>
            simp only [defaultModule, hn, Option.some.injEq] at hd
            exact hd.symm
          | arr xs =>
            simp only [defaultModule, hn, Option.some.injEq] at hd
            exact hd.symm
          | obj fs =>
            simp only [defaultModule, hn, Option.some.injEq] at hd
            exact hd.symm
        cases i with
        | zero =>
          injection hm with hmeq
          subst hmeq
          rw [hstep m0 m0' hd0 hno]
          show some (jsSpreadSet m0 kOrder (natJson (j + 1))) =
            some (jsSpreadSet m0 kOrder (natJson (j + 0 + 1)))
          rw [show j + 0 + 1 = j + 1 from by omega]
        | succ i' =>
          have := ih (j + 1) rest hds i' m hm hno
          show rest.get? i' = _
          rw [this]
          have harith : j + 1 + i' + 1 = j + (i' + 1) + 1 := by omega
          rw [harith]

theorem defaultOrders_get {v r : Json} (h : defaultOrders v = some r) :
    ∀ i m, (modulesOf v).get? i = some m → jsGet m kOrder = none →
      ∃ m', (modulesOf r).get? i = some m' ∧
        jsGet m' kOrder = some (natJson (i + 1)) := by
  intro i m hm hno
  unfold defaultOrders at h
  cases hjv : jsGet v kModules with
  | none => rw [hjv] at h; cases h
  | some w =>
    cases w with
    | arr ms =>
      rw [hjv] at h
      have h' : (match defaultModulesGo ms 0 with
          | some ms' => some (jsSpreadSet v kModules (Json.arr ms'))
          | none => none) = some r := h
      cases hgo : defaultModulesGo ms 0 with
      | none => rw [hgo] at h'; cases h'
      | some ms' =>
        rw [hgo] at h'
        cases h'
        have hmv : modulesOf v = ms := by simp [modulesOf, hjv]
        rw [hmv] at hm
        have hi := defaultModulesGo_get ms 0 ms' hgo i m hm hno
        refine ⟨jsSpreadSet m kOrder (natJson (0 + i + 1)), ?_, ?_⟩
        · have hmr : modulesOf (jsSpreadSet v kModules (.arr ms')) = ms' := by
            show (match lookupField kModules (setField kModules (Json.arr ms')
                (spreadFields v)) with
              | some (Json.arr ms) => ms
              | _ => ([] : List Json)) = ms'
            rw [lookupField_setField_same]
          rw [hmr]
          exact hi
        · show jsGet (Json.obj (setField kOrder (natJson (0 + i + 1))
            (spreadFields m))) kOrder = _
          show lookupField kOrder (setField kOrder (natJson (0 + i + 1))
            (spreadFields m)) = _
          rw [lookupField_setField_same]
          have : (0 : Nat) + i + 1 = i + 1 := by omega
          rw [this]
    | null => rw [hjv] at h; cases h
    | bool b => rw [hjv] at h; cases h
    | num lex => rw [hjv] at h; cases h
    | str s => rw [hjv] at h; cases h
    | obj fs => rw [hjv] at h; cases h

/-- **C1.** (amended) For every input that is well-formed JSON —
optionally wrapped in a markdown code fence — *on which the tier-1
normalization (trailing-comma removal and comma insertion) does not
change the parsed value*, the recovery parser returns a Generation
Result equal to the result of parsing that JSON directly, with each
module's `order` defaulted to its 1-based position in the modules
array when the module has no explicit `order`. -/
theorem c1_wellformed_json_equals_direct_parse (t' : List Char)
    {tr : List Char} (v r : Json)
    (hlast : ('{' :: t').reverse = '}' :: tr)
    (hdirect : jsparse ('{' :: t') = some v)
    (hnorm : jsparse (normalizeTier1 ('{' :: t')) = some v)
    (hval : validateStructure v = .ok r) :
    recoverCourse (wrapFence ('{' :: t')) = .ok r ∧
    recoverCourse ('{' :: t') = .ok r ∧
    directParse ('{' :: t') = .ok r ∧
    (∀ i m, (modulesOf v).get? i = some m → jsGet m kOrder = none →
       ∃ m', (modulesOf r).get? i = some m' ∧
         jsGet m' kOrder = some (natJson (i + 1))) := by
  refine ⟨?_, ?_, ?_, ?_⟩
  · have h : recoverCourse (wrapFence ('{' :: t')) = validateStructure v := by
      unfold recoverCourse
      rw [tier1String_wrap_eq_normalize hlast, hnorm]
    rw [h, hval]
  · have h : recoverCourse ('{' :: t') = validateStructure v := by
      unfold recoverCourse
      rw [tier1String_eq_normalize hlast, hnorm]
    rw [h, hval]
  · have h : directParse ('{' :: t') = validateStructure v := by
      unfold directParse
      rw [hdirect]
    rw [h, hval]
  · exact defaultOrders_get (validateStructure_ok hval)

/-- **C1** fails as stated: on well-formed JSON whose title string
contains `,}`, the always-applied trailing-comma removal rewrites
inside the string literal, so the parser's result differs from the
direct parse. -/
theorem c1_counterexample :
    (∃ v, jsparse c1cexStr = some v) ∧
    titleOf (recoverCourse c1cexStr) = some "x\x7d".data ∧
    titleOf (directParse c1cexStr) = some "x,\x7d".data ∧
    ("x\x7d".data : List Char) ≠ "x,\x7d".data :=
  ⟨⟨Json.obj [(kTitle, .str "x,\x7d".data), (kDescription, .str "d".data),
      (kModules, .arr [])], rfl⟩,
   rfl, rfl, by decide⟩

theorem c1_wellformed_json_equals_direct_parse_witness :
    recoverCourse (wrapFence c1witJson) =
      .ok (Json.obj [(kTitle, .str "T".data), (kDescription, .str "D".data),
        (kModules, .arr [Json.obj [(kTitle, .str "M".data),
          (kDescription, .str "d".data), (kOrder, .num "1".data)]])]) ∧
    recoverCourse c1witJson =
      .ok (Json.obj [(kTitle, .str "T".data), (kDescription, .str "D".data),
        (kModules, .arr [Json.obj [(kTitle, .str "M".data),
          (kDescription, .str "d".data), (kOrder, .num "1".data)]])]) ∧
    directParse c1witJson =
      .ok (Json.obj [(kTitle, .str "T".data), (kDescription, .str "D".data),
        (kModules, .arr [Json.obj [(kTitle, .str "M".data),
          (kDescription, .str "d".data), (kOrder, .num "1".data)]])]) :=
  have h := c1_wellformed_json_equals_direct_parse
    "\"title\":\"T\",\"description\":\"D\",\"modules\":[\x7b\"title\":\"M\",\"description\":\"d\"\x7d]\x7d".data
    (Json.obj [(kTitle, .str "T".data), (kDescription, .str "D".data),
      (kModules, .arr [Json.obj [(kTitle, .str "M".data),
        (kDescription, .str "d".data)]])])
    (Json.obj [(kTitle, .str "T".data), (kDescription, .str "D".data),
      (kModules, .arr [Json.obj [(kTitle, .str "M".data),
        (kDescription, .str "d".data), (kOrder, .num "1".data)]])])
    rfl rfl rfl rfl
  ⟨h.1, h.2.1, h.2.2.1⟩

/-- **C5.** (amended) For every JSON text that is valid except for a
single missing comma between two adjacent string-valued lines, *and on
which the tier-1 normalization changes the text only by restoring that
comma (up to whitespace placement) — in particular the repair patterns
do not also fire inside string literals* — the parser recovers and
returns an output equal to parsing the comma-corrected text. -/
theorem c5_missing_comma_repaired (t' : List Char) {tr : List Char}
    (j : List Char) (v r : Json)
    (_hshape : missingCommaShape ('{' :: t') j)
    (hlast : ('{' :: t').reverse = '}' :: tr)
    (hcor : jsparse j = some v)
    (hnorm : jsparse (normalizeTier1 ('{' :: t')) = some v)
    (hval : validateStructure v = .ok r) :
    recoverCourse ('{' :: t') = .ok r ∧ directParse j = .ok r := by
  constructor
  · have h : recoverCourse ('{' :: t') = validateStructure v := by
      unfold recoverCourse
      rw [tier1String_eq_normalize hlast, hnorm]
    rw [h, hval]
  · have h : directParse j = validateStructure v := by
      unfold directParse
      rw [hcor]
    rw [h, hval]

/-- **C5** fails as stated: when the text additionally contains `,]`
inside its title string, the trailing-comma removal corrupts the
title, so the recovered output differs from the comma-corrected
parse. -/
theorem c5_counterexample :
    missingCommaShape c5cexStr c5corStr ∧
    (∃ v, jsparse c5corStr = some v) ∧
    titleOf (recoverCourse c5cexStr) = some "a]b".data ∧
    titleOf (directParse c5corStr) = some "a,]b".data ∧
    ("a]b".data : List Char) ≠ "a,]b".data :=
  ⟨⟨"\x7b\"title\":\"a,]b".data, [], [],
     "description\":\"D\",\"modules\":[]\x7d".data, by decide, rfl, rfl⟩,
   ⟨Json.obj [(kTitle, .str "a,]b".data), (kDescription, .str "D".data),
      (kModules, .arr [])], rfl⟩,
   rfl, rfl, by decide⟩

theorem c5_missing_comma_repaired_witness :
    recoverCourse c5witStr =
      .ok (Json.obj [(kTitle, .str "T".data), (kDescription, .str "D".data),
        (kModules, .arr [])]) ∧
    directParse c5witCor =
      .ok (Json.obj [(kTitle, .str "T".data), (kDescription, .str "D".data),
        (kModules, .arr [])]) :=
  c5_missing_comma_repaired
    "\"title\":\"T\"\n\"description\":\"D\",\"modules\":[]\x7d".data
    c5witCor
    (Json.obj [(kTitle, .str "T".data), (kDescription, .str "D".data),
      (kModules, .arr [])])
    (Json.obj [(kTitle, .str "T".data), (kDescription, .str "D".data),
      (kModules, .arr [])])
    ⟨"\x7b\"title\":\"T".data, [], [],
      "description\":\"D\",\"modules\":[]\x7d".data, by decide, rfl, rfl⟩
    rfl rfl rfl rfl

theorem mem_insertDraft {m x : ModDraft} :
    ∀ {l : List ModDraft}, x ∈ insertDraft m l → x = m ∨ x ∈ l := by
  intro l
  induction l with
  | nil =>
    intro h
    rcases List.mem_singleton.mp h with h1
    exact Or.inl h1
  | cons y ys ih =>
    intro h
    unfold insertDraft at h
    by_cases hc : y.order ≤ m.order
    · rw [if_pos hc] at h
      rcases List.mem_cons.mp h with h1 | h2
      · exact Or.inr (List.mem_cons.mpr (Or.inl h1))
      · rcases ih h2 with h3 | h4
        · exact Or.inl h3
        · exact Or.inr (List.mem_cons.mpr (Or.inr h4))
    · rw [if_neg hc] at h
      rcases List.mem_cons.mp h with h1 | h2
      · exact Or.inl h1
      · exact Or.inr h2

theorem pairwise_insertDraft {m : ModDraft} :
    ∀ {l : List ModDraft},
      l.Pairwise (fun a b => a.order ≤ b.order) →
      (insertDraft m l).Pairwise (fun a b => a.order ≤ b.order) := by
  intro l
  induction l with
  | nil => intro _; simp [insertDraft]
  | cons y ys ih =>
    intro h
    rcases List.pairwise_cons.mp h with ⟨hy, hys⟩
    unfold insertDraft
    by_cases hc : y.order ≤ m.order
    · rw [if_pos hc]
      refine List.pairwise_cons.mpr ⟨?_, ih hys⟩
      intro z hz
      rcases mem_insertDraft hz with h1 | h2
      · rw [h1]; exact hc
      · exact hy z h2
    · rw [if_neg hc]
      refine List.pairwise_cons.mpr ⟨?_, h⟩
      intro z hz
      rcases List.mem_cons.mp hz with h1 | h2
      · rw [h1]; omega
      · exact Nat.le_trans (by omega) (hy z h2)

theorem sortDrafts_pairwise (l : List ModDraft) :
    (sortDrafts l).Pairwise (fun a b => a.order ≤ b.order) := by
  have main : ∀ (xs : List ModDraft) (acc : List ModDraft),
      acc.Pairwise (fun a b => a.order ≤ b.order) →
      (xs.foldl (fun acc m => insertDraft m acc) acc).Pairwise
        (fun a b => a.order ≤ b.order) := by
    intro xs
    induction xs with
    | nil => intro acc h; exact h
    | cons x xs ih =>
      intro acc h
      exact ih (insertDraft x acc) (pairwise_insertDraft h)
  exact main l [] (by simp)

/-- **C2.** (amended) When the strict and repaired parse attempts both
fail, the tier-3 fallback matches module-shaped fragments that contain
a title, *then* a description, *then* a numeric order — in that fixed
order of appearance — within the raw modules-array text, collects
them, and sorts them ascending by `order`; the fallback candidate is
handed to the common post-parse validation whenever at least one
module is recovered and a title was found; if no module is recovered,
or no title or no modules-array text is found, parsing fails with the
response-unparseable error. -/
theorem c2_tier3_field_extraction (l : List Char)
    (h1 : jsparse (tier1String l) = none)
    (h2 : jsparse (tier2String l) = none) :
    (tier3Data (tier2String l) = none →
       recoverCourse l = .error .unparseable) ∧
    (∀ v, tier3Data (tier2String l) = some v →
       recoverCourse l = validateStructure v) ∧
    (∀ t rest g, findField litTitle false (tier2String l) = some (t, rest) →
       findModulesArr (tier2String l) = some g →
       collectModules g ≠ [] →
       tier3Data (tier2String l) = some (.obj [(kTitle, .str t),
         (kDescription, .str (tier3Desc (tier2String l))),
         (kModules, .arr ((sortDrafts (collectModules g)).map draftJson))])) ∧
    (tier3Data (tier2String l) = none ↔
       (findField litTitle false (tier2String l) = none ∨
        findModulesArr (tier2String l) = none ∨
        (∃ g, findModulesArr (tier2String l) = some g ∧
          collectModules g = []))) ∧
    (∀ g, (sortDrafts (collectModules g)).Pairwise
       (fun a b => a.order ≤ b.order)) := by
  refine ⟨?_, ?_, ?_, ?_, ?_⟩
  · intro h3
    unfold recoverCourse
    rw [h1, h2, h3]
  · intro v h3
    unfold recoverCourse
    rw [h1, h2, h3]
  · intro t rest g hf hm hne
    unfold tier3Data
    rw [hf, hm]
    simp only [List.isEmpty_iff]
    rw [if_neg hne]
  · unfold tier3Data
    cases hf : findField litTitle false (tier2String l) with
    | none =>
      simp only [true_iff]
      exact Or.inl trivial
    | some tp =>
      obtain ⟨t, rest⟩ := tp
      cases hm : findModulesArr (tier2String l) with
      | none =>
        simp only [true_iff]
        exact Or.inr (Or.inl trivial)
      | some g =>
        by_cases hne : (collectModules g).isEmpty
        · simp only [hne, if_true, true_iff]
          exact Or.inr (Or.inr ⟨g, rfl, List.isEmpty_iff.mp hne⟩)
        · simp only [hne, if_false, Bool.false_eq_true]
          constructor
          · intro hc; cases hc
          · intro hc
            rcases hc with hc | hc | ⟨g', hg', hemp⟩
            · cases hc
            · cases hc
            · injection hg' with hgg
              rw [← hgg] at hemp
              rw [hemp] at hne
              simp at hne
  · intro g
    exact sortDrafts_pairwise (collectModules g)

/-- **C2** fails as stated: on an input where both parses fail and the
single module fragment lists its fields in the order `order`, `title`,
`description`, the fragment is *not* matched (the regex requires
title, then description, then order) and parsing fails, although a
title, a description and a numeric order are all present in the
fragment. -/
theorem c2_counterexample :
    jsparse (tier1String c2cexStr) = none ∧
    jsparse (tier2String c2cexStr) = none ∧
    (∃ g, findModulesArr (tier2String c2cexStr) = some g ∧
      (findField litTitle false g).isSome = true ∧
      (findField litDescription true g).isSome = true ∧
      (findOrder g).isSome = true ∧
      collectModules g = []) ∧
    recoverCourse c2cexStr = .error .unparseable :=
  ⟨rfl, rfl,
   ⟨"\x7b\"order\": 1, \"title\": \"M\", \"description\": \"D\"\x7d".data,
    rfl, rfl, rfl, rfl, rfl⟩,
   rfl⟩

theorem c2_tier3_field_extraction_witness :
    recoverCourse c2witStr =
      validateStructure (Json.obj [(kTitle, .str "T".data),
        (kDescription, .str "D".data),
        (kModules, .arr [Json.obj [(kTitle, .str "B".data),
            (kDescription, .str "b".data), (kOrder, .num "1".data)],
          Json.obj [(kTitle, .str "A".data),
            (kDescription, .str "a".data), (kOrder, .num "2".data)]])]) ∧
    (sortDrafts (collectModules
      "\x7b\"title\":\"A\",\"description\":\"a\",\"order\":2\x7d\x7b\"title\":\"B\",\"description\":\"b\",\"order\":1\x7d".data)).Pairwise
      (fun a b => a.order ≤ b.order) :=
  ⟨(c2_tier3_field_extraction c2witStr rfl rfl).2.1 _ rfl,
   (c2_tier3_field_extraction c2witStr rfl rfl).2.2.2.2
     "\x7b\"title\":\"A\",\"description\":\"a\",\"order\":2\x7d\x7b\"title\":\"B\",\"description\":\"b\",\"order\":1\x7d".data⟩

/-- **C4.** For every parse path that produces a candidate object
(strict parse, repaired parse, or field-extraction fallback), the
parser applies the same post-parse validation: it fails with a
structure-invalid error unless the candidate has a non-empty (truthy)
title, a non-empty (truthy) description, and an array for modules.
(The validation reads properties of the candidate, so the candidate is
assumed to be an object — in particular not JSON `null`, on which a
property read throws instead.) -/
theorem c4_uniform_post_parse_validation :
    (∀ l v, recoverCandidate l = some v → recoverCourse l = validateStructure v) ∧
    (∀ l, recoverCandidate l = none → recoverCourse l = .error .unparseable) ∧
    (∀ v, v ≠ Json.null →
      (validateStructure v = .error .structureInvalid ↔
        (jsTruthy (jsGet v kTitle) && jsTruthy (jsGet v kDescription)
          && isArrayOpt (jsGet v kModules)) = false)) := by
  refine ⟨?_, ?_, ?_⟩
  · intro l v h; rw [recoverCourse_candidate, h]
  · intro l h; rw [recoverCourse_candidate, h]
  · intro v hv
    have main : ∀ w : Json,
        (if jsTruthy (jsGet w kTitle) && jsTruthy (jsGet w kDescription)
            && isArrayOpt (jsGet w kModules) then
          (match defaultOrders w with
           | some r => (Except.ok r : Except GenError Json)
           | none => .error .runtimeError)
         else .error .structureInvalid) = .error .structureInvalid ↔
        (jsTruthy (jsGet w kTitle) && jsTruthy (jsGet w kDescription)
          && isArrayOpt (jsGet w kModules)) = false := by
      intro w
      by_cases hc : (jsTruthy (jsGet w kTitle) && jsTruthy (jsGet w kDescription)
          && isArrayOpt (jsGet w kModules)) = true
      · simp only [hc, if_true]
        cases defaultOrders w <;> simp [hc]
      · simp only [Bool.not_eq_true] at hc
        simp [hc]
    cases v with
    | null => exact absurd rfl hv
    | bool b => exact main (.bool b)
    | num lex => exact main (.num lex)
    | str s => exact main (.str s)
    | arr xs => exact main (.arr xs)
    | obj fs => exact main (.obj fs)

theorem c4_uniform_post_parse_validation_witness :
    recoverCourse c4witStr =
      validateStructure (Json.obj [(kTitle, .str "t".data),
        (kDescription, .str "d".data), (kModules, .arr [])]) ∧
    (validateStructure (Json.obj []) = .error .structureInvalid ↔
      (jsTruthy (jsGet (Json.obj []) kTitle)
        && jsTruthy (jsGet (Json.obj []) kDescription)
        && isArrayOpt (jsGet (Json.obj []) kModules)) = false) :=
  ⟨c4_uniform_post_parse_validation.1 c4witStr _ rfl,
   c4_uniform_post_parse_validation.2.2 (Json.obj []) (by intro h; cases h)⟩

theorem jsGet_draftJson_duration (d : ModDraft) :
    jsGet (draftJson d) kDuration = none := by
  show lookupField kDuration
    [(kTitle, Json.str d.title), (kDescription, Json.str d.desc),
     (kOrder, natJson d.order)] = none
  simp only [lookupField]
  rw [if_neg (by decide), if_neg (by decide), if_neg (by decide)]

/-- **C9.** Every module draft produced by the tier-3 field-extraction
fallback has exactly the fields `title`, `description` and `order`; in
particular its optional `duration` field is always absent, even when a
duration value appears in the matched fragment text. -/
theorem c9_tier3_drafts_have_no_duration :
    ∀ jc v, tier3Data jc = some v → ∀ m ∈ modulesOf v,
      fieldKeys m = [kTitle, kDescription, kOrder] ∧
      jsGet m kDuration = none := by
  intro jc v h m hm
  unfold tier3Data at h
  cases h1 : findField litTitle false jc with
  | none => rw [h1] at h; cases h
  | some tp =>
    cases h2 : findModulesArr jc with
    | none => rw [h1, h2] at h; cases h
    | some g =>
      rw [h1, h2] at h
      obtain ⟨t, r⟩ := tp
      by_cases hne : (collectModules g).isEmpty
      · simp only [hne, if_true] at h; cases h
      · simp only [hne, if_false, Bool.false_eq_true] at h
        cases h
        have hmods : modulesOf (Json.obj [(kTitle, .str t),
            (kDescription, .str (tier3Desc jc)),
            (kModules, .arr ((sortDrafts (collectModules g)).map draftJson))]) =
            (sortDrafts (collectModules g)).map draftJson := by
          unfold modulesOf jsGet
          simp only [lookupField]
          rw [if_neg (by decide), if_neg (by decide), if_pos (by decide)]
        rw [hmods] at hm
        obtain ⟨d, _, hd⟩ := List.mem_map.mp hm
        subst hd
        exact ⟨rfl, jsGet_draftJson_duration d⟩

theorem insertModules_ok_courses (env : StoreEnv) (cid : Nat) :
    ∀ ms (st st' : DBState), insertModules env cid ms st = .ok st' →
      st'.courses = st.courses := by
  intro ms
  induction ms with
  | nil =>
    intro st st' h
    simp only [insertModules, Except.ok.injEq] at h
    rw [← h]
  | cons m ms ih =>
    intro st st' h
    simp only [insertModules] at h
    by_cases hf : env.moduleInsertFails m
    · rw [if_pos hf] at h; cases h
    · rw [if_neg hf] at h
      exact (ih _ _ h).trans rfl

theorem insertModules_ok_mono (env : StoreEnv) (cid : Nat) :
    ∀ ms (st st' : DBState), insertModules env cid ms st = .ok st' →
      ∀ r ∈ st.modules, r ∈ st'.modules := by
  intro ms
  induction ms with
  | nil =>
    intro st st' h r hr
    simp only [insertModules, Except.ok.injEq] at h
    rw [← h]; exact hr
  | cons m ms ih =>
    intro st st' h r hr
    simp only [insertModules] at h
    by_cases hf : env.moduleInsertFails m
    · rw [if_pos hf] at h; cases h
    · rw [if_neg hf] at h
      exact ih _ _ h r (List.mem_append_left _ hr)

theorem insertModules_ok_mem (env : StoreEnv) (cid : Nat) :
    ∀ ms (st st' : DBState), insertModules env cid ms st = .ok st' →
      ∀ m ∈ ms, ∃ r, r ∈ st'.modules ∧ r.courseId = cid ∧
        r.title = m.title ∧ r.description = m.description ∧
        r.order = m.order ∧ r.duration = m.duration := by
  intro ms
  induction ms with
  | nil => intro st st' _ m hm; cases hm
  | cons m0 ms ih =>
    intro st st' h m hm
    simp only [insertModules] at h
    by_cases hf : env.moduleInsertFails m0
    · rw [if_pos hf] at h; cases h
    · rw [if_neg hf] at h
      rcases List.mem_cons.mp hm with hm0 | hmem
      · subst hm0
        refine ⟨{ id := st.nextId, courseId := cid, title := m.title,
                  description := m.description, order := m.order,
                  duration := m.duration }, ?_, rfl, rfl, rfl, rfl, rfl⟩
        refine insertModules_ok_mono env cid ms _ _ h _ ?_
        exact List.mem_append_right _ (List.mem_singleton.mpr rfl)
      · exact ih _ _ h m hmem

theorem createCourseWithModules_spec (env : StoreEnv) (st : DBState)
    (uid : Nat) (topic diff : List Char) (cd : CourseData) :
    createCourseWithModules env st uid topic diff cd =
      (if env.courseInsertFails then (st, .error ())
       else
        match insertModules env st.nextId cd.modules
            (courseInsertState st uid topic diff cd) with
        | .ok st2 => (st2, .ok st.nextId)
        | .error e => (st, .error e)) := by
  unfold createCourseWithModules
  by_cases hcf : env.courseInsertFails
  · simp [hcf]
  · simp only [hcf, if_false, Bool.false_eq_true]
    cases insertModules env st.nextId cd.modules
        (courseInsertState st uid topic diff cd) <;> rfl

/-- **C6.** Creating a course together with its modules is atomic: if
insertion of any module fails, no course row and no module rows from
that call are visible afterward (the visible state is the input
state); if the call succeeds, the course row and a row for every
module are persisted. -/
theorem c6_create_course_with_modules_atomic
    (env : StoreEnv) (st : DBState) (uid : Nat)
    (topic diff : List Char) (cd : CourseData) :
    (∀ e, (createCourseWithModules env st uid topic diff cd).2 = .error e →
       (createCourseWithModules env st uid topic diff cd).1 = st) ∧
    (∀ cid, (createCourseWithModules env st uid topic diff cd).2 = .ok cid →
       (∃ c, c ∈ (createCourseWithModules env st uid topic diff cd).1.courses ∧
          c.id = cid ∧ c.title = cd.title ∧ c.topic = topic ∧
          c.difficulty = diff ∧ c.description = cd.description ∧
          c.userId = uid) ∧
       (∀ m ∈ cd.modules,
          ∃ r, r ∈ (createCourseWithModules env st uid topic diff cd).1.modules ∧
            r.courseId = cid ∧ r.title = m.title ∧
            r.description = m.description ∧ r.order = m.order ∧
            r.duration = m.duration)) := by
  rw [createCourseWithModules_spec]
  by_cases hcf : env.courseInsertFails
  · rw [if_pos hcf]
    exact ⟨fun e _ => rfl, fun cid h => by cases h⟩
  · rw [if_neg hcf]
    cases hins : insertModules env st.nextId cd.modules
        (courseInsertState st uid topic diff cd) with
    | error e => exact ⟨fun e' _ => rfl, fun cid h => Except.noConfusion h⟩
    | ok st2 =>
      refine ⟨fun e h => Except.noConfusion h, fun cid h => ?_⟩
      have hcid : cid = st.nextId := by cases h; rfl
      subst hcid
      constructor
      · refine ⟨{ id := st.nextId, title := cd.title, topic := topic,
                  difficulty := diff, description := cd.description,
                  userId := uid }, ?_, rfl, rfl, rfl, rfl, rfl, rfl⟩
        have hc : st2.courses = (courseInsertState st uid topic diff cd).courses :=
          insertModules_ok_courses env st.nextId cd.modules _ _ hins
        show _ ∈ st2.courses
        rw [hc]
        exact List.mem_append_right _ (List.mem_singleton.mpr rfl)
      · intro m hm
        exact insertModules_ok_mem env st.nextId cd.modules _ _ hins m hm

theorem c6_create_course_with_modules_atomic_witness :
    (createCourseWithModules c6envFail c6st 0 "t".data "beginner".data c6data).2 =
      .error () ∧
    (createCourseWithModules c6envFail c6st 0 "t".data "beginner".data c6data).1 =
      c6st ∧
    (createCourseWithModules c6envOk c6st 0 "t".data "beginner".data c6data).2 =
      .ok 1 ∧
    (∃ c, c ∈ (createCourseWithModules c6envOk c6st 0 "t".data "beginner".data c6data).1.courses ∧
       c.id = 1 ∧ c.title = c6data.title ∧ c.topic = "t".data ∧
       c.difficulty = "beginner".data ∧ c.description = c6data.description ∧
       c.userId = 0) :=
  ⟨rfl,
   (c6_create_course_with_modules_atomic c6envFail c6st 0 "t".data "beginner".data c6data).1 () rfl,
   rfl,
   ((c6_create_course_with_modules_atomic c6envOk c6st 0 "t".data "beginner".data c6data).2 1 rfl).1⟩

/-- **C10.** For every email for which a user record already exists,
find-or-create-user returns that record and modifies nothing (in
particular the stored display name is never overwritten by the name
argument); a new record is created only when no user with that email
exists. -/
theorem c10_get_or_create_user (st : DBState) (email : List Char)
    (name : Option (List Char)) :
    (∀ u, st.users.find? (fun x => x.email = email) = some u →
       getOrCreateUser st email name = (u, st)) ∧
    (st.users.find? (fun x => x.email = email) = none →
       ∃ u, getOrCreateUser st email name =
           (u, { st with users := st.users ++ [u], nextId := st.nextId + 1 }) ∧
         u.email = email ∧
         u.name = (match name with | some n => n | none => "Demo User".data)) := by
  constructor
  · intro u h
    unfold getOrCreateUser
    rw [h]
  · intro h
    unfold getOrCreateUser
    rw [h]
    exact ⟨_, rfl, rfl, rfl⟩

theorem c10_get_or_create_user_witness :
    getOrCreateUser c10st "a@b.c".data (some "Overwriter".data) =
      ({ id := 0, email := "a@b.c".data, name := "Alice".data }, c10st) ∧
    (∃ u, getOrCreateUser c10st "new@b.c".data none =
        (u, { c10st with users := c10st.users ++ [u], nextId := c10st.nextId + 1 }) ∧
      u.email = "new@b.c".data ∧ u.name = "Demo User".data) :=
  ⟨(c10_get_or_create_user c10st "a@b.c".data (some "Overwriter".data)).1 _ rfl,
   (c10_get_or_create_user c10st "new@b.c".data none).2 rfl⟩

/-- **C7.** The generate handler validates before any service is
invoked: whenever the schema rejects the input, the response carries
the first violated rule's message and the service-call trace is empty;
an empty topic, an over-long topic, and a difficulty outside the
enumeration are each rejected with their rule's message. -/
theorem c7_input_validation_first_message (env : ActionEnv)
    (t d : Option (List Char)) :
    (∀ m, validateGenerateInput t d = .error m →
       generateCourse env t d = ({ success := false, error := some m }, [])) ∧
    (t = some [] → validateGenerateInput t d = .error msgTopicRequired) ∧
    (∀ l, t = some l → 200 < l.length →
       validateGenerateInput t d = .error msgTopicTooLong) ∧
    (∀ l dd, t = some l → l ≠ [] → l.length ≤ 200 → d = some dd →
       dd ∉ DIFFICULTY_LEVELS →
       validateGenerateInput t d = .error msgDifficultyEnum) := by
  refine ⟨?_, ?_, ?_, ?_⟩
  · intro m h
    unfold generateCourse
    rw [h]
  · intro h
    subst h
    rfl
  · intro l ht hl
    subst ht
    have h1 : l.isEmpty = false := by
      cases l with
      | nil => simp at hl
      | cons a l' => rfl
    simp [validateGenerateInput, h1, hl]
  · intro l dd ht hne hlen hd hdd
    subst ht; subst hd
    have h1 : l.isEmpty = false := by
      cases l with
      | nil => exact absurd rfl hne
      | cons a l' => rfl
    have h2 : ¬(200 < l.length) := by omega
    simp [validateGenerateInput, h1, h2, hdd]

theorem c7_input_validation_first_message_witness :
    generateCourse c8env (some []) (some "expert".data) =
      ({ success := false, error := some msgTopicRequired }, []) ∧
    validateGenerateInput (some "Math".data) (some "expert".data) =
      .error msgDifficultyEnum :=
  ⟨(c7_input_validation_first_message c8env (some []) (some "expert".data)).1
     msgTopicRequired
     ((c7_input_validation_first_message c8env (some []) (some "expert".data)).2.1 rfl),
   (c7_input_validation_first_message c8env (some "Math".data) (some "expert".data)).2.2.2
     "Math".data "expert".data rfl (by intro h; cases h) (by decide) rfl (by decide)⟩

theorem runModelsGo_all_nocontent (env : AIEnv) :
    ∀ names le, (∀ n ∈ names, noContentFrom env n) →
      runModelsGo env names le = (none, lastThrown env names le, names) := by
  intro names
  induction names with
  | nil => intro le _; rfl
  | cons n ns ih =>
    intro le h
    have hn := h n (List.mem_cons_self n ns)
    have hns : ∀ a ∈ ns, noContentFrom env a :=
      fun a ha => h a (List.mem_cons_of_mem n ha)
    simp only [runModelsGo]
    rcases hn with hno | hemp
    · rw [hno, ih _ hns]
      rfl
    · rw [hemp]
      simp only [List.isEmpty_nil, if_true]
      rw [ih _ hns]
      rfl

theorem runModelsGo_first_success (env : AIEnv) :
    ∀ pre (b : List Char) post c le, (∀ a ∈ pre, noContentFrom env a) →
      attemptContent env b = some c → c.isEmpty = false →
      ∃ le', runModelsGo env (pre ++ b :: post) le = (some c, le', pre ++ [b]) := by
  intro pre
  induction pre with
  | nil =>
    intro b post c le _ hb hc
    refine ⟨(match attemptError env b with | some e => some e | none => le), ?_⟩
    simp only [List.nil_append, runModelsGo, hb, hc]
    rfl
  | cons a pre ih =>
    intro b post c le hpre hb hc
    have ha := hpre a (List.mem_cons_self a pre)
    have hpre' : ∀ x ∈ pre, noContentFrom env x :=
      fun x hx => hpre x (List.mem_cons_of_mem a hx)
    obtain ⟨le', hle⟩ := ih b post c
      (match attemptError env a with | some e => some e | none => le) hpre' hb hc
    refine ⟨le', ?_⟩
    simp only [List.cons_append, runModelsGo, List.append_eq]
    rcases ha with hno | hemp
    · rw [hno, hle]
    · rw [hemp]
      simp only [List.isEmpty_nil, if_true]
      rw [hle]

theorem mem_infix_joinComma :
    ∀ (names : List (List Char)) (n), n ∈ names → n <:+: joinComma names := by
  intro names
  induction names with
  | nil => intro n h; cases h
  | cons x xs ih =>
    intro n h
    cases xs with
    | nil =>
      rw [List.mem_singleton.mp h]
      exact ⟨[], [], by simp [joinComma]⟩
    | cons y ys =>
      rcases List.mem_cons.mp h with h1 | h2
      · subst h1
        exact ⟨[], ", ".data ++ joinComma (y :: ys), by simp [joinComma]⟩
      · obtain ⟨s, t, hst⟩ := ih n h2
        refine ⟨x ++ ", ".data ++ s, t, ?_⟩
        show x ++ ", ".data ++ s ++ n ++ t = joinComma (x :: y :: ys)
        rw [show joinComma (x :: y :: ys) = x ++ ", ".data ++ joinComma (y :: ys) from rfl,
            ← hst]
        simp [List.append_assoc]

/-- **C3.** The generation service tries the candidate model
identifiers in order, stops at the first identifier that returns
non-empty text (JSON mode first, plain mode when JSON mode was
rejected) without calling any identifier after it, and when every
candidate is exhausted without output it fails with an
upstream-unavailable error whose message names every attempted
identifier and carries the last underlying error. -/
theorem c3_model_fallback_loop (env : AIEnv) (envKey : Option (List Char))
    (net : Except Unit (List (List Char))) :
    (∀ pre b post c, modelsToTry envKey net = pre ++ b :: post →
       (∀ a ∈ pre, noContentFrom env a) →
       attemptContent env b = some c → c.isEmpty = false →
       (generateCourseSyllabus env envKey net).2 = pre ++ [b] ∧
       (generateCourseSyllabus env envKey net).1 = recoverCourse c) ∧
    ((∀ a ∈ modelsToTry envKey net, noContentFrom env a) →
       (generateCourseSyllabus env envKey net).1 =
         .error (.noContent (failPrefix ++ noContentMsg (modelsToTry envKey net)
           (lastThrown env (modelsToTry envKey net) none))) ∧
       (generateCourseSyllabus env envKey net).2 = modelsToTry envKey net ∧
       (∀ n ∈ modelsToTry envKey net,
          n <:+: failPrefix ++ noContentMsg (modelsToTry envKey net)
            (lastThrown env (modelsToTry envKey net) none))) := by
  constructor
  · intro pre b post c hsplit hpre hb hc
    obtain ⟨le', hle⟩ := runModelsGo_first_success env pre b post c none hpre hb hc
    simp only [generateCourseSyllabus]
    rw [hsplit, hle]
    exact ⟨rfl, rfl⟩
  · intro h
    have hrun := runModelsGo_all_nocontent env (modelsToTry envKey net) none h
    refine ⟨?_, ?_, ?_⟩
    · simp only [generateCourseSyllabus]
      rw [hrun]
    · simp only [generateCourseSyllabus]
      rw [hrun]
    · intro n hn
      have h1 : n <:+: joinComma (modelsToTry envKey net) :=
        mem_infix_joinComma _ n hn
      obtain ⟨s, t, hst⟩ := h1
      refine ⟨(failPrefix ++ "No content received from Gemini. Tried models: ".data) ++ s,
              t ++ (". Last error: ".data
                ++ (match lastThrown env (modelsToTry envKey net) none with
                    | some e => e | none => "Unknown error".data)
                ++ ". Please check your GEMINI_API_KEY and ensure it has access to Gemini models.".data), ?_⟩
      unfold noContentMsg
      rw [← hst]
      simp [List.append_assoc]

theorem c3_model_fallback_loop_witness :
    ((generateCourseSyllabus c3envA none (.error ())).2 =
       ["gemini-1.5-pro".data, "gemini-1.5-flash".data] ∧
     (generateCourseSyllabus c3envA none (.error ())).1 = recoverCourse c3text) ∧
    ((generateCourseSyllabus c3envB none (.error ())).1 =
       .error (.noContent (failPrefix ++ noContentMsg AVAILABLE_MODELS (some "boom".data))) ∧
     (generateCourseSyllabus c3envB none (.error ())).2 = AVAILABLE_MODELS) := by
  constructor
  · exact (c3_model_fallback_loop c3envA none (.error ())).1
      ["gemini-1.5-pro".data] "gemini-1.5-flash".data
      ["gemini-pro".data, "gemini-2.0-flash-exp".data] c3text rfl
      (by
        intro a ha
        rw [List.mem_singleton.mp ha]
        exact Or.inr rfl)
      rfl rfl
  · have h := (c3_model_fallback_loop c3envB none (.error ())).2
      (by intro a _; exact Or.inl rfl)
    exact ⟨h.1, h.2.1⟩

/-- **C8.** When the generation-provider API key is absent, client
construction and model listing still return values (no crash), and —
with every provider call failing — a generation request produces a
clean `success: false` response with an error message rather than an
uncaught exception. -/
theorem c8_missing_api_key_fails_cleanly :
    (∀ net, mkGeminiClient none = { apiKey := [] } ∧
       listAvailableModels none net = AVAILABLE_MODELS) ∧
    (∀ env : ActionEnv, (∀ n, attemptContent env.ai n = none) →
       ∀ t d, (generateCourse env t d).1.success = false ∧
         ((generateCourse env t d).1).error.isSome = true) := by
  constructor
  · intro net; exact ⟨rfl, rfl⟩
  · intro env h t d
    have hgen : (generateCourseSyllabus env.ai env.apiKey env.net).1 =
        .error (.noContent (failPrefix ++ noContentMsg (modelsToTry env.apiKey env.net)
          (lastThrown env.ai (modelsToTry env.apiKey env.net) none))) := by
      simp only [generateCourseSyllabus]
      rw [runModelsGo_all_nocontent env.ai _ none (fun a _ => Or.inl (h a))]
    unfold generateCourse
    cases validateGenerateInput t d with
    | error m => exact ⟨rfl, rfl⟩
    | ok p =>
      cases env.dbUser with
      | error e => exact ⟨rfl, rfl⟩
      | ok u =>
        rw [hgen]
        exact ⟨rfl, rfl⟩

theorem c8_missing_api_key_fails_cleanly_witness :
    mkGeminiClient none = { apiKey := [] } ∧
    listAvailableModels none (.error ()) = AVAILABLE_MODELS ∧
    (generateCourse c8env (some "Math".data) (some "beginner".data)).1.success = false ∧
    ((generateCourse c8env (some "Math".data) (some "beginner".data)).1).error.isSome = true := by
  refine ⟨(c8_missing_api_key_fails_cleanly.1 (.error ())).1,
          (c8_missing_api_key_fails_cleanly.1 (.error ())).2, ?_, ?_⟩
  · exact (c8_missing_api_key_fails_cleanly.2 c8env (fun n => rfl)
      (some "Math".data) (some "beginner".data)).1
  · exact (c8_missing_api_key_fails_cleanly.2 c8env (fun n => rfl)
      (some "Math".data) (some "beginner".data)).2

theorem c9_tier3_drafts_have_no_duration_witness :
    tier3Data c9witStr = some (Json.obj [(kTitle, .str "T".data),
      (kDescription, .str "a".data),
      (kModules, .arr [Json.obj [(kTitle, .str "A".data),
        (kDescription, .str "a".data), (kOrder, .num "1".data)]])]) ∧
    (fieldKeys (Json.obj [(kTitle, .str "A".data),
        (kDescription, .str "a".data), (kOrder, .num "1".data)]) =
      [kTitle, kDescription, kOrder] ∧
     jsGet (Json.obj [(kTitle, .str "A".data),
        (kDescription, .str "a".data), (kOrder, .num "1".data)]) kDuration = none) :=
  ⟨rfl,
   c9_tier3_drafts_have_no_duration c9witStr _ rfl _
     (List.mem_singleton.mpr rfl)⟩

end CourseGen

